import Mathlib

/-!
Verification of the query-AST visitor core (src/visitor/visitor.rs) and the
schema-position tracker (src/visitor/type_info.rs) of a GraphQL parser crate.

The traversal engine is embedded as an explicit state machine: the Rust
function `visit` is a single `loop` over mutable locals, translated here as a
step function over a state record iterated with fuel.  The AST node payloads
(Document, Field, ...) live in the crate's parser module outside the two
visitor source files; their child structure is modelled from the spec's data
model (one variant per grammar production, ordered child slots), which is all
the visitor code can observe.
-/

/-- Modelled from the spec: the operation kinds of the parser module's
`OperationDefinition` enum (a bare selection set, or an explicit query,
mutation or subscription operation). -/
inductive OperationKind : Type where
  | selectionSet
  | query
  | mutation
  | subscription

/-- The named, list and non-null type references of the parser module's
`Type` enum (outside the two visitor source files), modelled from the spec's
data model. -/
inductive GqlType : Type where
  | NamedType (name : String)
  | ListType (inner : GqlType)
  | NonNullType (inner : GqlType)

/-- Modelled from the spec: the AST node variants mirror the nine variants of
`QueryAstNode` in src/visitor/visitor.rs; the payload of each variant (the
types `Document`, `OperationDefinition`, ... from the crate's parser module,
which is outside the two visitor source files) is modelled from the spec's
data model as scalar leaf data plus an ordered list of visitable children. -/
inductive QueryAstNode : Type where
  | Document (definitions : List QueryAstNode)
  | OperationDefinition (kind : OperationKind) (children : List QueryAstNode)
  | FragmentDefinition (name : String) (children : List QueryAstNode)
  | VariableDefinition (name : String) (var_type : GqlType)
  | SelectionSet (items : List QueryAstNode)
  | Field (name : String) (children : List QueryAstNode)
  | FragmentSpread (name : String)
  | InlineFragment (children : List QueryAstNode)
  | Directive (name : String)

/-- The `VisitorAction` enum of src/visitor/visitor.rs: `NoAction`, `Skip`,
`Break` (stop visiting altogether), `DeleteNode`, `ReplaceNode(node)`.  It has
exactly these five variants; in particular it has no error variant. -/
inductive VisitorAction : Type where
  | NoAction
  | Skip
  | Break
  | DeleteNode
  | ReplaceNode (node : QueryAstNode)

/-- The `QueryVisitor` trait of src/visitor/visitor.rs.  Its two methods take
`&mut self`, modelled as an explicit visitor-state `σ` threaded through each
hook; both provided (default) method bodies return `VisitorAction::Skip`. -/
structure QueryVisitor (σ : Type) : Type where
  enter : σ → QueryAstNode → σ × VisitorAction := fun s _ => (s, VisitorAction.Skip)
  leave : σ → QueryAstNode → σ × VisitorAction := fun s _ => (s, VisitorAction.Skip)

/-- A ghost record of a visitor hook invocation, used to state which hooks the
engine calls (the loop body of `visit` contains no call site for either). -/
inductive HookCall : Type where
  | enterCall (node : QueryAstNode)
  | leaveCall (node : QueryAstNode)

/-- The `VisitorStack` struct of src/visitor/visitor.rs: `index`, `keys`,
`edits`, and a mandatory boxed `previous` stack.  Since it has no base-case
variant and the source contains no constructor call for it, the type has no
closed-form inhabitant, which the inductive below reflects. -/
inductive VisitorStack : Type where
  | mk (index : Nat) (keys : List QueryAstNode)
      (edits : List (QueryAstNode × QueryAstNode)) (previous : VisitorStack)


/-- The mutable locals of `visit` in src/visitor/visitor.rs, one field per
`let mut`, plus the ghost field `calls` logging every visitor hook invocation
the loop performs (the translated body contains none, matching the source). -/
structure VisitState : Type where
  stack : Option VisitorStack
  keys : List QueryAstNode
  index : Nat
  edits : List (QueryAstNode × QueryAstNode)
  node : Option QueryAstNode
  key : Option QueryAstNode
  parent : Option QueryAstNode
  path : List QueryAstNode
  ancestors : List QueryAstNode
  new_root : QueryAstNode
  is_first_loop : Bool
  calls : List HookCall

/-- Outcome of one iteration of the `loop` in `visit`: either fall through to
the next iteration (`next`, covering both the `continue` statement and the
normal end of the body) or leave the loop (`done`, the `break` statement). -/
inductive StepResult : Type where
  | next (s : VisitState)
  | done (s : VisitState)

/-- Placeholder node produced where the Rust source indexes a vector
(`path[path.len() - 1]`, `keys[index]`); at every reachable state the index is
in bounds, so the placeholder never surfaces in any run proved below. -/
def panicNode : QueryAstNode := QueryAstNode.Document []

/-- One iteration of the `loop` body of `visit` (src/visitor/visitor.rs lines
81-147), translated statement by statement.  The `is_edited` branch of the
source computes only an unused local (`edit_offset`) and a commented-out edit
application, so it changes no state.  The body never invokes `visitor.enter`
or `visitor.leave`, so nothing is appended to the ghost `calls` log. -/
def visitStep (s0 : VisitState) : StepResult :=
  let s1 :=
    if s0.is_first_loop then { s0 with is_first_loop := false }
    else { s0 with index := s0.index + 1 }
  let is_leaving := s1.index = s1.keys.length
  if is_leaving then
    let s2 :=
      if s1.ancestors.length = 0 then { s1 with key := none }
      else { s1 with key := some (s1.path.getD (s1.path.length - 1) panicNode) }
    let s3 := { s2 with node := s2.parent }
    let s4 := { s3 with parent := s3.ancestors.getLast?,
                        ancestors := s3.ancestors.dropLast }
    let s5 :=
      match s4.stack with
      | some (VisitorStack.mk i k e prev) =>
          { s4 with index := i, keys := k, edits := e, stack := some prev }
      | none => s4
    if s5.stack.isNone then StepResult.done s5 else StepResult.next s5
  else
    let s2 :=
      { s1 with key := if s1.parent.isSome
                       then some (s1.keys.getD s1.index panicNode)
                       else none }
    if s2.node.isNone then StepResult.next s2
    else
      let s3 :=
        if s2.parent.isSome then
          match s2.key with
          | some k => { s2 with path := s2.path.concat k }
          | none => s2
        else s2
      if s3.stack.isNone then StepResult.done s3 else StepResult.next s3

/-- Fuel-indexed iteration of `visitStep`; `none` means the loop did not reach
its `break` within the given fuel. -/
def visitLoop : Nat → VisitState → Option VisitState
  | 0, _ => none
  | fuel + 1, s =>
      match visitStep s with
      | StepResult.done s1 => some s1
      | StepResult.next s1 => visitLoop fuel s1

/-- The initial values of the mutable locals of `visit` (lines 68-79). -/
def initState (root : QueryAstNode) : VisitState :=
  { stack := none, keys := [root], index := 0, edits := [], node := none,
    key := none, parent := none, path := [], ancestors := [], new_root := root,
    is_first_loop := true, calls := [] }

/-- Runs the loop of `visit` from the initial state.  The loop body never
reads the `visitor` argument of `visit`, so the run depends on `root` alone;
fuel 1000 is ample (the loop is proved below to break on its second
iteration). -/
def visitRun (root : QueryAstNode) : Option VisitState :=
  visitLoop 1000 (initState root)

/-- The `visit` function of src/visitor/visitor.rs: run the loop, then apply
the trailing edit-extraction (lines 149-154: if `edits` is non-empty the last
edit's value becomes `new_root`) and return `new_root`.  The `visitor`
parameter is declared as in the source; the loop body never uses it. -/
def visit {σ : Type} (root : QueryAstNode) (visitor : QueryVisitor σ)
    (vstate : σ) : QueryAstNode :=
  match visitRun root with
  | some s =>
      if s.edits.length ≠ 0 then
        (s.edits.getD (s.edits.length - 1) (panicNode, panicNode)).2
      else s.new_root
  | none => root

/-- The ghost log of visitor hook invocations performed by a run of `visit`. -/
def visitCalls (root : QueryAstNode) : List HookCall :=
  match visitRun root with
  | some s => s.calls
  | none => []

/-- The state in which the loop of `visit` breaks, for every root: the second
iteration takes the leaving branch with an empty ancestor stack and a `none`
frame stack, so the locals are unchanged except `index` and `is_first_loop`. -/
def visitFinalState (root : QueryAstNode) : VisitState :=
  { stack := none, keys := [root], index := 1, edits := [], node := none,
    key := none, parent := none, path := [], ancestors := [], new_root := root,
    is_first_loop := false, calls := [] }

/-- Modelled from the spec: the unwrapped base type name of a type reference
(list and non-null wrappers unwrap one layer at a time). -/
def GqlType.baseName : GqlType → String
  | GqlType.NamedType name => name
  | GqlType.ListType inner => inner.baseName
  | GqlType.NonNullType inner => inner.baseName

/-- Modelled from the spec: a composite (object/interface/union) type as the
schema-position tracker records it, identified by its schema type name. -/
structure CompositeType : Type where
  name : String

/-- Modelled from the spec: an input type as the schema-position tracker
records it, identified by its schema type name. -/
structure InputType : Type where
  name : String

/-- Modelled from the spec: a field definition of a schema type — the field
name and its declared return type. -/
structure FieldDef : Type where
  name : String
  field_type : GqlType

/-- Modelled from the spec: a schema type definition — a name and its ordered
field definitions. -/
structure SchemaTypeDef : Type where
  name : String
  fields : List FieldDef

/-- Modelled from the spec: the already-parsed schema document the tracker is
constructed from — the root operation type names, the type definitions, and
the directive definition names. -/
structure SchemaDocument : Type where
  query_type : Option String := none
  mutation_type : Option String := none
  subscription_type : Option String := none
  types : List SchemaTypeDef := []
  directives : List String := []

/-- The `TypeInfo` struct of src/visitor/type_info.rs: a schema document plus
one stack per tracked concern and three scalar slots.  The element types
(`Type`, `CompositeType`, `InputType`, `Field`, values) come from the parser
module outside the two visitor source files and are modelled from the spec. -/
structure TypeInfo : Type where
  schema : SchemaDocument
  type_stack : List (Option GqlType)
  parent_type_stack : List (Option CompositeType)
  input_type_stack : List (Option InputType)
  field_def_stack : List (Option FieldDef)
  default_value_stack : List (Option String)
  directive : Option String
  argument : Option (String × String)
  enum_value : Option String

/-- The `TypeInfo::new` constructor of src/visitor/type_info.rs: all stacks
empty, all scalar slots `None`. -/
def TypeInfo.new (schema : SchemaDocument) : TypeInfo :=
  { schema := schema, type_stack := [], parent_type_stack := [],
    input_type_stack := [], field_def_stack := [], default_value_stack := [],
    directive := none, argument := none, enum_value := none }

/-- The `TypeInfo::get_type` accessor of src/visitor/type_info.rs: the top
(index `len - 1`) of `type_stack` when the stack is non-empty, `None`
otherwise. -/
def TypeInfo.get_type (info : TypeInfo) : Option GqlType :=
  let type_stack_length := info.type_stack.length
  if type_stack_length > 0 then
    info.type_stack.getD (type_stack_length - 1) none
  else none

/-- The `TypeInfo::get_parent_type` accessor of src/visitor/type_info.rs: the
top of `parent_type_stack` when non-empty, `None` otherwise. -/
def TypeInfo.get_parent_type (info : TypeInfo) : Option CompositeType :=
  let parent_type_stack_length := info.parent_type_stack.length
  if parent_type_stack_length > 0 then
    info.parent_type_stack.getD (parent_type_stack_length - 1) none
  else none

/-- The `TypeInfo::get_input_type` accessor of src/visitor/type_info.rs: the
top of `input_type_stack` when non-empty, `None` otherwise. -/
def TypeInfo.get_input_type (info : TypeInfo) : Option InputType :=
  let input_type_stack := info.input_type_stack.length
  if input_type_stack > 0 then
    info.input_type_stack.getD (input_type_stack - 1) none
  else none

/-- Modelled from the spec: look a type definition up in the schema by name. -/
def SchemaDocument.lookupType (schema : SchemaDocument) (name : String) :
    Option SchemaTypeDef :=
  schema.types.find? (fun t => t.name == name)

/-- Modelled from the spec: the root operation type for an operation kind (a
bare selection set is a query operation). -/
def SchemaDocument.rootOperationType (schema : SchemaDocument)
    (kind : OperationKind) : Option GqlType :=
  match kind with
  | OperationKind.selectionSet => schema.query_type.map GqlType.NamedType
  | OperationKind.query => schema.query_type.map GqlType.NamedType
  | OperationKind.mutation => schema.mutation_type.map GqlType.NamedType
  | OperationKind.subscription => schema.subscription_type.map GqlType.NamedType

/-- Modelled from the spec: resolve a field definition by name on the current
parent composite type; `none` when the lookup misses. -/
def TypeInfo.lookupFieldDef (info : TypeInfo) (name : String) :
    Option FieldDef :=
  match info.get_parent_type with
  | some comp =>
      match info.schema.lookupType comp.name with
      | some tdef => tdef.fields.find? (fun f => f.name == name)
      | none => none
  | none => none

/-- Modelled from the spec: the composite type corresponding to the current
output type, when its base name resolves to a schema type definition. -/
def TypeInfo.currentComposite (info : TypeInfo) : Option CompositeType :=
  match info.get_type with
  | some t =>
      match info.schema.lookupType t.baseName with
      | some tdef => some { name := tdef.name }
      | none => none
  | none => none

/-- Modelled from the spec: the input type named by a variable definition's
declared type annotation, `none` when its base name is not a schema type. -/
def TypeInfo.resolveInputType (info : TypeInfo) (t : GqlType) :
    Option InputType :=
  match info.schema.lookupType t.baseName with
  | some tdef => some { name := tdef.name }
  | none => none

/-- Modelled from the spec: TypeInfo's enter transition is declared in the
spec (a push of the resolved schema context, or `None` on a lookup miss, on
entering each node kind that establishes context) but is absent from
src/visitor/type_info.rs, which only declares the struct, the constructor and
the accessors.  Operation definitions push the root type on `type_stack`;
selection sets push the current composite on `parent_type_stack`; fields push
on `field_def_stack` and `type_stack`; variable definitions push on
`input_type_stack` and `default_value_stack`; directives set the scalar
`directive` slot. -/
def TypeInfo.enter (info : TypeInfo) (node : QueryAstNode) : TypeInfo :=
  match node with
  | QueryAstNode.OperationDefinition kind _ =>
      { info with
        type_stack := info.type_stack.concat (info.schema.rootOperationType kind) }
  | QueryAstNode.SelectionSet _ =>
      { info with
        parent_type_stack := info.parent_type_stack.concat info.currentComposite }
  | QueryAstNode.Field name _ =>
      let fd := info.lookupFieldDef name
      { info with
        field_def_stack := info.field_def_stack.concat fd,
        type_stack := info.type_stack.concat (fd.map FieldDef.field_type) }
  | QueryAstNode.VariableDefinition _ var_type =>
      { info with
        input_type_stack := info.input_type_stack.concat (info.resolveInputType var_type),
        default_value_stack := info.default_value_stack.concat none }
  | QueryAstNode.Directive name =>
      { info with directive := info.schema.directives.find? (fun d => d == name) }
  | _ => info

/-- Modelled from the spec: TypeInfo's leave transition (absent from
src/visitor/type_info.rs like `enter`) pops, for each node kind, exactly the
stacks its enter pushed, and clears the scalar `directive` slot. -/
def TypeInfo.leave (info : TypeInfo) (node : QueryAstNode) : TypeInfo :=
  match node with
  | QueryAstNode.OperationDefinition _ _ =>
      { info with type_stack := info.type_stack.dropLast }
  | QueryAstNode.SelectionSet _ =>
      { info with parent_type_stack := info.parent_type_stack.dropLast }
  | QueryAstNode.Field _ _ =>
      { info with field_def_stack := info.field_def_stack.dropLast,
                  type_stack := info.type_stack.dropLast }
  | QueryAstNode.VariableDefinition _ _ =>
      { info with input_type_stack := info.input_type_stack.dropLast,
                  default_value_stack := info.default_value_stack.dropLast }
  | QueryAstNode.Directive _ =>
      { info with directive := none }
  | _ => info

/-- The five context stacks of a tracker state, as one tuple; the claim about
enter/leave balance is stated as preservation of this projection. -/
def TypeInfo.stacksOf (info : TypeInfo) :
    List (Option GqlType) × List (Option CompositeType) ×
    List (Option InputType) × List (Option FieldDef) × List (Option String) :=
  (info.type_stack, info.parent_type_stack, info.input_type_stack,
   info.field_def_stack, info.default_value_stack)

/-- A visitor whose enter and leave hooks always answer `NoAction`. -/
def noopVisitor : QueryVisitor Unit :=
  { enter := fun s _ => (s, VisitorAction.NoAction),
    leave := fun s _ => (s, VisitorAction.NoAction) }

/-- The replacement node a test visitor offers for every selection set. -/
def c1_replacement : QueryAstNode :=
  QueryAstNode.SelectionSet [QueryAstNode.Field "x" []]

/-- A concrete document whose single slot holds a selection set. -/
def c1_root : QueryAstNode :=
  QueryAstNode.Document [QueryAstNode.SelectionSet [QueryAstNode.Field "a" []]]

/-- A visitor that, as in the repository's own `node_editing_on_enter` test,
answers `ReplaceNode` for every selection set it enters. -/
def c1_visitor : QueryVisitor Unit :=
  { enter := fun s n =>
      match n with
      | QueryAstNode.SelectionSet _ => (s, VisitorAction.ReplaceNode c1_replacement)
      | _ => (s, VisitorAction.NoAction),
    leave := fun s _ => (s, VisitorAction.NoAction) }

/-- A concrete document with one query operation over one field. -/
def c3_root : QueryAstNode :=
  QueryAstNode.Document
    [QueryAstNode.OperationDefinition OperationKind.query [QueryAstNode.Field "b" []]]

/-- A visitor that answers `ReplaceNode` for every field it enters. -/
def c3_visitor : QueryVisitor Unit :=
  { enter := fun s n =>
      match n with
      | QueryAstNode.Field _ _ =>
          (s, VisitorAction.ReplaceNode (QueryAstNode.Field "c" []))
      | _ => (s, VisitorAction.NoAction),
    leave := fun s _ => (s, VisitorAction.NoAction) }

/-- A visitor whose hooks always answer `Break`. -/
def breakVisitor : QueryVisitor Unit :=
  { enter := fun s _ => (s, VisitorAction.Break),
    leave := fun s _ => (s, VisitorAction.Break) }

/-- A concrete document with a selection set of two sibling fields. -/
def c4_root : QueryAstNode :=
  QueryAstNode.Document
    [QueryAstNode.SelectionSet [QueryAstNode.Field "a" [], QueryAstNode.Field "b" []]]

/-- Helper: the loop of `visit` breaks in the state `visitFinalState root`
(its second iteration takes the leaving branch with `stack = none`). -/
theorem visitRun_eq (root : QueryAstNode) :
    visitRun root = some (visitFinalState root) := rfl

/-- Helper: the common accessor pattern of src/visitor/type_info.rs (index
`len - 1` behind a non-emptiness test) returns the stack's last element. -/
theorem stackTop_eq {α : Type} (l : List (Option α)) (x : Option α)
    (h : l.getLast? = some x) :
    (if l.length > 0 then l.getD (l.length - 1) none else none) = x := by
  have hne : l ≠ [] := by
    intro hl
    rw [hl] at h
    simp at h
  have hpos : 0 < l.length := List.length_pos.mpr hne
  rw [if_pos hpos]
  rw [List.getD_eq_getElem?_getD]
  rw [← List.getLast?_eq_getElem?]
  rw [h]
  rfl

/-- Claim C1: the claim says a visitor answering `ReplaceNode(R)` on enter
makes `R` (possibly further edited) occupy the corresponding slot of the
returned tree.  The code violates it: at this concrete input the visitor
offers a replacement for the document's selection set, yet `visit` returns
the original tree — the slot still holds the old selection set, which differs
from the replacement — and the ghost call log shows no hook was ever
invoked. -/
theorem C1_replace_is_discarded :
    visit c1_root c1_visitor () =
      QueryAstNode.Document [QueryAstNode.SelectionSet [QueryAstNode.Field "a" []]]
    ∧ QueryAstNode.SelectionSet [QueryAstNode.Field "a" []] ≠ c1_replacement
    ∧ visitCalls c1_root = [] := by
  refine ⟨rfl, ?_, rfl⟩
  simp [c1_replacement]

/-- Claim C2: for every tree and every visitor whose enter and leave hooks
always return `NoAction`, `visit` returns a tree deeply equal to the input
(here it returns the input itself). -/
theorem C2_noop_visitor_identity {σ : Type} (root : QueryAstNode)
    (v : QueryVisitor σ) (s : σ)
    (henter : ∀ st n, (v.enter st n).2 = VisitorAction.NoAction)
    (hleave : ∀ st n, (v.leave st n).2 = VisitorAction.NoAction) :
    visit root v s = root := rfl

/-- Witness for C2 at a concrete one-field document and the no-op visitor. -/
theorem C2_witness :
    visit (QueryAstNode.Document [QueryAstNode.Field "w" []]) noopVisitor () =
      QueryAstNode.Document [QueryAstNode.Field "w" []] :=
  C2_noop_visitor_identity _ noopVisitor () (fun _ _ => rfl) (fun _ _ => rfl)

/-- Claim C3: the claim gives `visit` the contract
`visit(root, visitor) -> Result<Node, FatalError>` with error propagation and
accepted edits spliced in.  The code violates it: the action type has exactly
five variants, none an error (so no hook can signal a fatal error and the
return type carries no error case), and at this concrete input a visitor
offering an edit has its edit discarded — `visit` returns the original root
and the ghost call log shows no hook was ever invoked. -/
theorem C3_no_error_channel_no_edits :
    (∀ a : VisitorAction,
      a = VisitorAction.NoAction ∨ a = VisitorAction.Skip ∨ a = VisitorAction.Break
      ∨ a = VisitorAction.DeleteNode ∨ ∃ n, a = VisitorAction.ReplaceNode n)
    ∧ visit c3_root c3_visitor () = c3_root
    ∧ visitCalls c3_root = [] := by
  refine ⟨?_, rfl, rfl⟩
  intro a
  cases a with
  | NoAction => exact Or.inl rfl
  | Skip => exact Or.inr (Or.inl rfl)
  | Break => exact Or.inr (Or.inr (Or.inl rfl))
  | DeleteNode => exact Or.inr (Or.inr (Or.inr (Or.inl rfl)))
  | ReplaceNode n => exact Or.inr (Or.inr (Or.inr (Or.inr ⟨n, rfl⟩)))

/-- Claim C4: the claim describes `Break` received while visiting the k-th
node in traversal order.  The code violates its premise: `visit` performs no
hook invocation at all (empty ghost call log even for a visitor that answers
`Break` to everything), so no node is ever visited and no `Break` can be
received; the tree comes back unedited. -/
theorem C4_break_visitor_never_consulted :
    visitCalls c4_root = [] ∧ visit c4_root breakVisitor () = c4_root :=
  ⟨rfl, rfl⟩

/-- Counterexample for claim C5: the default (non-overridden) enter hook, run
on a concrete node, returns `Skip`, which differs from the `NoAction` the
claim promises. -/
theorem C5_counterexample :
    ({} : QueryVisitor Unit).enter () (QueryAstNode.Document []) =
      ((), VisitorAction.Skip)
    ∧ VisitorAction.Skip ≠ VisitorAction.NoAction := by
  refine ⟨rfl, ?_⟩
  intro h
  exact VisitorAction.noConfusion h

/-- Claim C5 as amended: the default implementations of `enter` and `leave`
each return `Skip` (not `NoAction`) for every node and every visitor state,
so a visitor overriding neither method answers `Skip` everywhere. -/
theorem C5_defaults_return_skip {σ : Type} (s : σ) (n : QueryAstNode) :
    ({} : QueryVisitor σ).enter s n = (s, VisitorAction.Skip)
    ∧ ({} : QueryVisitor σ).leave s n = (s, VisitorAction.Skip) := ⟨rfl, rfl⟩

/-- Claim C6: each accessor of the schema-position tracker returns the top of
its stack when the stack is non-empty and `none` when it is empty; on a
freshly constructed tracker all three return `none`. -/
theorem C6_accessors_top_or_none (info : TypeInfo) (schema : SchemaDocument) :
    (info.type_stack = [] → info.get_type = none)
    ∧ (∀ x, info.type_stack.getLast? = some x → info.get_type = x)
    ∧ (info.parent_type_stack = [] → info.get_parent_type = none)
    ∧ (∀ x, info.parent_type_stack.getLast? = some x → info.get_parent_type = x)
    ∧ (info.input_type_stack = [] → info.get_input_type = none)
    ∧ (∀ x, info.input_type_stack.getLast? = some x → info.get_input_type = x)
    ∧ (TypeInfo.new schema).get_type = none
    ∧ (TypeInfo.new schema).get_parent_type = none
    ∧ (TypeInfo.new schema).get_input_type = none := by
  refine ⟨?_, ?_, ?_, ?_, ?_, ?_, rfl, rfl, rfl⟩
  · intro h
    simp [TypeInfo.get_type, h]
  · intro x h
    simpa [TypeInfo.get_type] using stackTop_eq info.type_stack x h
  · intro h
    simp [TypeInfo.get_parent_type, h]
  · intro x h
    simpa [TypeInfo.get_parent_type] using stackTop_eq info.parent_type_stack x h
  · intro h
    simp [TypeInfo.get_input_type, h]
  · intro x h
    simpa [TypeInfo.get_input_type] using stackTop_eq info.input_type_stack x h

/-- Witness for C6 at a tracker state with a one-element type stack. -/
theorem C6_witness :
    ({ TypeInfo.new {} with
        type_stack := [some (GqlType.NamedType "T")] } : TypeInfo).type_stack.getLast? =
      some (some (GqlType.NamedType "T"))
    ∧ ({ TypeInfo.new {} with
        type_stack := [some (GqlType.NamedType "T")] } : TypeInfo).get_type =
      some (GqlType.NamedType "T") := by
  refine ⟨rfl, ?_⟩
  exact (C6_accessors_top_or_none
    ({ TypeInfo.new {} with type_stack := [some (GqlType.NamedType "T")] }) {}).2.1
    (some (GqlType.NamedType "T")) rfl

/-- Claim C7: entering a node pushes onto exactly the context stacks that node
kind establishes, and leaving the same node kind pops them, restoring the
prior stacks exactly — even when the whole subtree traversal in between
(abstracted as any transformation `M` that preserves the stacks) has run.
Hence every matched enter/leave pair leaves the five stacks as they were,
and the stacks stay balanced with enter/leave depth. -/
theorem C7_enter_leave_balances_stacks (info : TypeInfo) (node : QueryAstNode)
    (M : TypeInfo → TypeInfo) (hM : ∀ s, (M s).stacksOf = s.stacksOf) :
    ((M (info.enter node)).leave node).stacksOf = info.stacksOf := by
  cases node with
  | Document ds =>
      simpa [TypeInfo.enter, TypeInfo.leave] using hM (info.enter (QueryAstNode.Document ds))
  | OperationDefinition kind cs =>
      have h := hM (info.enter (QueryAstNode.OperationDefinition kind cs))
      simp only [TypeInfo.stacksOf, Prod.mk.injEq] at h
      obtain ⟨h1, h2, h3, h4, h5⟩ := h
      simp only [TypeInfo.leave, TypeInfo.stacksOf]
      rw [h1, h2, h3, h4, h5]
      simp [TypeInfo.enter, List.concat_eq_append]
  | FragmentDefinition name cs =>
      simpa [TypeInfo.enter, TypeInfo.leave]
        using hM (info.enter (QueryAstNode.FragmentDefinition name cs))
  | VariableDefinition name vt =>
      have h := hM (info.enter (QueryAstNode.VariableDefinition name vt))
      simp only [TypeInfo.stacksOf, Prod.mk.injEq] at h
      obtain ⟨h1, h2, h3, h4, h5⟩ := h
      simp only [TypeInfo.leave, TypeInfo.stacksOf]
      rw [h1, h2, h3, h4, h5]
      simp [TypeInfo.enter, List.concat_eq_append]
  | SelectionSet items =>
      have h := hM (info.enter (QueryAstNode.SelectionSet items))
      simp only [TypeInfo.stacksOf, Prod.mk.injEq] at h
      obtain ⟨h1, h2, h3, h4, h5⟩ := h
      simp only [TypeInfo.leave, TypeInfo.stacksOf]
      rw [h1, h2, h3, h4, h5]
      simp [TypeInfo.enter, List.concat_eq_append]
  | Field name cs =>
      have h := hM (info.enter (QueryAstNode.Field name cs))
      simp only [TypeInfo.stacksOf, Prod.mk.injEq] at h
      obtain ⟨h1, h2, h3, h4, h5⟩ := h
      simp only [TypeInfo.leave, TypeInfo.stacksOf]
      rw [h1, h2, h3, h4, h5]
      simp [TypeInfo.enter, List.concat_eq_append]
  | FragmentSpread name =>
      simpa [TypeInfo.enter, TypeInfo.leave]
        using hM (info.enter (QueryAstNode.FragmentSpread name))
  | InlineFragment cs =>
      simpa [TypeInfo.enter, TypeInfo.leave]
        using hM (info.enter (QueryAstNode.InlineFragment cs))
  | Directive name =>
      have h := hM (info.enter (QueryAstNode.Directive name))
      simp only [TypeInfo.stacksOf, Prod.mk.injEq] at h
      obtain ⟨h1, h2, h3, h4, h5⟩ := h
      simp only [TypeInfo.leave, TypeInfo.stacksOf]
      rw [h1, h2, h3, h4, h5]
      simp [TypeInfo.enter, List.concat_eq_append]

/-- Witness for C7 at a fresh tracker, a field node and the identity as the
in-between subtree traversal. -/
theorem C7_witness :
    ((id ((TypeInfo.new {}).enter (QueryAstNode.Field "f" []))).leave
        (QueryAstNode.Field "f" [])).stacksOf = (TypeInfo.new {}).stacksOf :=
  C7_enter_leave_balances_stacks (TypeInfo.new {}) (QueryAstNode.Field "f" []) id
    (fun _ => rfl)

/-- Claim C8: for every root and every visitor (any state type, any hooks),
`visit` returns exactly its root argument; the loop breaks in a state whose
edit buffer is empty, so no edit is ever applied. -/
theorem C8_visit_returns_root_unedited {σ : Type} (root : QueryAstNode)
    (v : QueryVisitor σ) (s : σ) :
    visit root v s = root
    ∧ visitRun root = some (visitFinalState root)
    ∧ (visitFinalState root).edits = [] := ⟨rfl, rfl, rfl⟩

/-- Claim C9: the loop of `visit` reaches its break after a bounded number of
iterations — any fuel of at least 2 suffices, for every root (and hence every
visitor, which the loop never consults). -/
theorem C9_visit_loop_terminates (root : QueryAstNode) (fuel : Nat)
    (h : 2 ≤ fuel) :
    visitLoop fuel (initState root) = some (visitFinalState root) := by
  obtain ⟨k, rfl⟩ : ∃ k, fuel = k + 2 := ⟨fuel - 2, by omega⟩
  rfl

/-- Witness for C9 at fuel 2 and a concrete empty document. -/
theorem C9_witness :
    2 ≤ 2
    ∧ visitLoop 2 (initState (QueryAstNode.Document [])) =
        some (visitFinalState (QueryAstNode.Document [])) :=
  ⟨Nat.le_refl 2, C9_visit_loop_terminates (QueryAstNode.Document []) 2 (Nat.le_refl 2)⟩

/-- Claim C10: the result of `visit` does not depend on the visitor — any two
visitors over any state types yield equal trees on the same root — and the
ghost call log is empty, i.e. neither visitor's enter or leave hook is ever
invoked. -/
theorem C10_result_independent_of_visitor {σ₁ σ₂ : Type} (root : QueryAstNode)
    (v₁ : QueryVisitor σ₁) (v₂ : QueryVisitor σ₂) (s₁ : σ₁) (s₂ : σ₂) :
    visit root v₁ s₁ = visit root v₂ s₂ ∧ visitCalls root = [] := ⟨rfl, rfl⟩
